import Mathlib

/-!
# Verification of the mybeekeep calendar/recurrence engine

Shallow embedding of the calendar subsystem of the mybeekeep web
application (`src/lib/calendar.ts` and the calendar part of
`src/components/Notifications/NotificationsMenu.tsx`), together with
proofs and refutations of the specified properties.

Instants are modelled as integers counting milliseconds since the Unix
epoch, exactly as JavaScript `Date` stores them (`getTime`).  The code
runs date arithmetic through the `Date` mutators `setDate`, `setMonth`
and `setFullYear`; those are embedded below through the standard
civil-calendar conversion (days-from-civil / civil-from-days), using the
UTC timeline.  Fallible or possibly diverging code (the recurrence
expansion loop) is embedded with explicit fuel returning `Option`.
-/

namespace Beekeep

/-- Milliseconds in one day, as used by the JavaScript `Date` timeline. -/
def msPerDay : Int := 86400000

/-- Day count from civil date (proleptic Gregorian, `m` in 1..12), the
standard algorithm used by every `Date` implementation: day 0 is
1970-01-01. -/
def daysFromCivil (y m d : Int) : Int :=
  let y1 : Int := if m ≤ 2 then y - 1 else y
  let era : Int := y1 / 400
  let yoe : Int := y1 - era * 400
  let doy : Int := (153 * (m + (if 2 < m then -3 else 9)) + 2) / 5 + d - 1
  let doe : Int := yoe * 365 + yoe / 4 - yoe / 100 + doy
  era * 146097 + doe - 719468

/-- Civil date (year, month 1..12, day 1..31) from a day count. -/
def civilFromDays (z0 : Int) : Int × Int × Int :=
  let z : Int := z0 + 719468
  let era : Int := z / 146097
  let doe : Int := z - era * 146097
  let yoe : Int := (doe - doe / 1460 + doe / 36524 - doe / 146096) / 365
  let y : Int := yoe + era * 400
  let doy : Int := doe - (365 * yoe + yoe / 4 - yoe / 100)
  let mp : Int := (5 * doy + 2) / 153
  let d : Int := doy - (153 * mp + 2) / 5 + 1
  let m : Int := mp + (if mp < 10 then 3 else -9)
  (if m ≤ 2 then y + 1 else y, m, d)

/-- The day-count part of a timestamp (floor division, as the UTC timeline). -/
def epochDay (t : Int) : Int := t / msPerDay

/-- Milliseconds inside the day of a timestamp. -/
def msOfDay (t : Int) : Int := t % msPerDay

/-- JavaScript `getUTCFullYear`. -/
def getFullYear (t : Int) : Int := (civilFromDays (epochDay t)).1

/-- JavaScript `getUTCMonth` (0-based month). -/
def getMonth (t : Int) : Int := (civilFromDays (epochDay t)).2.1 - 1

/-- JavaScript `getUTCDate` (day of month, 1-based). -/
def getDate (t : Int) : Int := (civilFromDays (epochDay t)).2.2

/-- Timestamp of 00:00 UTC on a civil date (month 1..12); helper for
concrete inputs. -/
def mkTs (y m d : Int) : Int := daysFromCivil y m d * msPerDay

/-- Start of a month on the linear month index `k` (year `k / 12`, month
`k % 12` 0-based), as a day count.  Every `Date` month mutator resolves
to this anchor plus the preserved day-of-month offset. -/
def monthAnchor (k : Int) : Int := daysFromCivil (k / 12) (k % 12 + 1) 1

/-- Linear month index of a timestamp. -/
def monthIndex (t : Int) : Int := 12 * getFullYear t + getMonth t

/-- JavaScript `setDate t n`: replace the day-of-month field by `n`
(overflowing values roll over into adjacent months).  On the UTC
timeline this shifts the timestamp by `n - getDate t` days. -/
def setDate (t n : Int) : Int := t + (n - getDate t) * msPerDay

/-- JavaScript `setMonth t n`: replace the month field by `n` (any
integer; the year absorbs the overflow and an overflowing day-of-month
rolls into the next month, e.g. Jan 31 with month set to February lands
on March 3).  The timestamp moves by the distance between the old and
new month anchors, keeping day-of-month offset and time of day. -/
def setMonth (t n : Int) : Int :=
  t + (monthAnchor (12 * getFullYear t + n) - monthAnchor (monthIndex t)) * msPerDay

/-- JavaScript `setFullYear t y`: replace the year field by `y`, keeping
month, day-of-month offset and time of day (Feb 29 may roll into Mar 1). -/
def setFullYear (t y : Int) : Int :=
  t + (monthAnchor (12 * y + getMonth t) - monthAnchor (monthIndex t)) * msPerDay

/-- Number of days of the month at linear month index `k`. -/
def daysInMonth (k : Int) : Int := monthAnchor (k + 1) - monthAnchor k

/-- `date-fns` `addDays`. -/
def dfAddDays (t n : Int) : Int := t + n * msPerDay

/-- `date-fns` `subDays`. -/
def dfSubDays (t n : Int) : Int := t - n * msPerDay

/-- `date-fns` `addMonths`: calendar-correct month addition, clamping
the day-of-month to the length of the target month (Jan 31 plus one
month is Feb 28/29), keeping the time of day. -/
def dfAddMonths (t n : Int) : Int :=
  let k : Int := monthIndex t + n
  let d : Int := min (getDate t) (daysInMonth k)
  (monthAnchor k + d - 1) * msPerDay + msOfDay t

/-- `date-fns` `subMonths`, defined as it is in the library. -/
def dfSubMonths (t n : Int) : Int := dfAddMonths t (-n)

/-- `date-fns` `startOfMonth`: 00:00 on the first day of the month. -/
def startOfMonth (t : Int) : Int := monthAnchor (monthIndex t) * msPerDay

/-- `date-fns` `endOfMonth`: 23:59:59.999 on the last day of the month. -/
def endOfMonth (t : Int) : Int := monthAnchor (monthIndex t + 1) * msPerDay - 1

/-- Day of week of a timestamp, 0 = Sunday (1970-01-01 was a Thursday). -/
def dayOfWeek (t : Int) : Int := (epochDay t + 4) % 7

/-- `date-fns` `startOfWeek` with the default week start (Sunday):
00:00 on the Sunday on or before the date. -/
def startOfWeek (t : Int) : Int := (epochDay t - dayOfWeek t) * msPerDay

/-- `date-fns` `endOfWeek` with the default week start: 23:59:59.999 on
the following Saturday. -/
def endOfWeek (t : Int) : Int := startOfWeek t + 7 * msPerDay - 1

/-! ## Data model (`src/lib/calendar.ts`) -/

/-- Enum `EventType`. -/
inductive EventType where
  | inspection | treatment | harvest | feeding | equipment
  | queen_check | swarm_prevention | weather_alert | other
deriving DecidableEq, Repr

/-- Enum `NotificationType`. -/
inductive NotificationType where
  | email | push | sms | in_app
deriving DecidableEq, Repr

/-- The `priority` string union of `CalendarEvent`. -/
inductive Priority where
  | high | medium | low
deriving DecidableEq, Repr

/-- The `frequency` string union of `RecurrencePattern`. -/
inductive Frequency where
  | daily | weekly | monthly | yearly
deriving DecidableEq, Repr

/-- Interface `RecurrencePattern`; instants are epoch milliseconds.  The
source field `until` is renamed `untilDate` because `until` is reserved
in Lean. -/
structure RecurrencePattern where
  frequency : Frequency
  interval : Int
  untilDate : Option Int := none
  count : Option Int := none
deriving DecidableEq, Repr

/-- Interface `Reminder`. -/
structure Reminder where
  type : NotificationType
  minutes_before : Int
  sent : Bool
deriving DecidableEq, Repr

/-- Interface `CalendarEvent`; ISO date strings are embedded as the
epoch-millisecond instants they denote. -/
structure CalendarEvent where
  id : String
  user_id : String
  title : String
  description : Option String := none
  start_date : Int
  end_date : Option Int := none
  all_day : Bool
  type : EventType
  location : Option String := none
  apiary_id : Option String := none
  hive_ids : Option (List String) := none
  reminders : Option (List Reminder) := none
  recurrence : Option RecurrencePattern := none
  color : Option String := none
  priority : Priority
  weather_dependent : Option Bool := none
  completed : Option Bool := none
  completed_at : Option Int := none
  notes : Option String := none
  created_at : Option Int := none
  updated_at : Option Int := none
  tags : Option (List String) := none
deriving DecidableEq, Repr

/-! ## `calculateRecurringEvents` (RecurrenceExpander)

The source advances a cursor with the `Date` mutators and pushes
materialized instances while a `while` loop guard holds.  The loop is
embedded with explicit fuel: `none` means the fuel ran out before the
loop exited, so a diverging run is `none` at every fuel. -/

/-- The JavaScript initialisation `count = event.recurrence.count || Infinity`:
`none` stands for `Infinity`; a stored count of `0` is falsy in
JavaScript and therefore also becomes `Infinity`. -/
def initCount (c : Option Int) : Option Int :=
  match c with
  | none => none
  | some c => if c = 0 then none else some c

/-- `count > 0` where `none` is `Infinity`. -/
def countPos (c : Option Int) : Bool :=
  match c with
  | none => true
  | some c => 0 < c

/-- `count--` where `none` is `Infinity`. -/
def decCount (c : Option Int) : Option Int := c.map (· - 1)

/-- `!untilDate || current <= untilDate`. -/
def untilOk (u : Option Int) (current : Int) : Bool :=
  match u with
  | none => true
  | some u => current ≤ u

/-- One `switch (event.recurrence.frequency)` step of the cursor. -/
def advanceCursor (freq : Frequency) (interval current : Int) : Int :=
  match freq with
  | .daily => setDate current (getDate current + interval)
  | .weekly => setDate current (getDate current + interval * 7)
  | .monthly => setMonth current (getMonth current + interval)
  | .yearly => setFullYear current (getFullYear current + interval)

/-- The materialized instance object built inside the loop: spread of the
base event with a derived id, the cursor as start, the shifted end and an
appended tag. -/
def mkInstance (event : CalendarEvent) (eventEnd : Option Int) (duration current : Int) :
    CalendarEvent :=
  { event with
    id := event.id ++ "-" ++ toString current
    start_date := current
    end_date := eventEnd.map fun _ => current + duration
    tags := some ((event.tags.getD []) ++ ["recurring-instance"]) }

/-- The `while` loop of `calculateRecurringEvents`, returning the
instances it pushes, in push order; `none` when the fuel is exhausted
before the guard fails. -/
def recurLoop (event : CalendarEvent) (freq : Frequency) (interval : Int)
    (eventEnd : Option Int) (duration viewStart viewEnd : Int) (untilDate : Option Int) :
    Nat → Int → Option Int → Option (List CalendarEvent)
  | 0, _, _ => none
  | fuel + 1, current, count =>
    if current ≤ viewEnd ∧ countPos count ∧ untilOk untilDate current then
      let next := advanceCursor freq interval current
      if viewStart ≤ next ∧ next ≤ viewEnd ∧ untilOk untilDate next ∧ countPos count then
        (recurLoop event freq interval eventEnd duration viewStart viewEnd untilDate
            fuel next (decCount count)).map
          (mkInstance event eventEnd duration next :: ·)
      else
        recurLoop event freq interval eventEnd duration viewStart viewEnd untilDate
          fuel next count
    else
      some []

/-- `calculateRecurringEvents(event, viewStart, viewEnd)` with explicit
fuel for the expansion loop. -/
def calculateRecurringEvents (event : CalendarEvent) (viewStart viewEnd : Int)
    (fuel : Nat) : Option (List CalendarEvent) :=
  match event.recurrence with
  | none => some [event]
  | some rec =>
    let eventStart := event.start_date
    let eventEnd := event.end_date
    let duration : Int := match eventEnd with
      | some e => e - eventStart
      | none => 0
    let count0 := initCount rec.count
    let baseList : List CalendarEvent :=
      if viewStart ≤ eventStart ∧ eventStart ≤ viewEnd then [event] else []
    let count1 :=
      if viewStart ≤ eventStart ∧ eventStart ≤ viewEnd then decCount count0 else count0
    (recurLoop event rec.frequency rec.interval eventEnd duration viewStart viewEnd
        rec.untilDate fuel eventStart count1).map (baseList ++ ·)

/-! ## `generateRecommendedEvents` (SeasonalTemplateGenerator) -/

/-- One entry of the `SEASONAL_ACTIVITIES` tables. -/
structure SeasonalActivity where
  title : String
  type : EventType
  priority : Priority
deriving DecidableEq, Repr

/-- The per-season lists of one climate zone. -/
structure ZoneActivities where
  spring : List SeasonalActivity
  summer : List SeasonalActivity
  fall : List SeasonalActivity
  winter : List SeasonalActivity
deriving DecidableEq, Repr

/-- The `northeast` table of `SEASONAL_ACTIVITIES`. -/
def northeastActivities : ZoneActivities where
  spring := [
    { title := "Hive inspection", type := .inspection, priority := .high },
    { title := "Varroa mite check", type := .treatment, priority := .high },
    { title := "Add honey super", type := .equipment, priority := .medium },
    { title := "Swarm prevention check", type := .swarm_prevention, priority := .high }]
  summer := [
    { title := "Honey harvest", type := .harvest, priority := .medium },
    { title := "Check for queen cells", type := .queen_check, priority := .medium },
    { title := "Monitor for pests", type := .inspection, priority := .medium }]
  fall := [
    { title := "Varroa treatment", type := .treatment, priority := .high },
    { title := "Final honey harvest", type := .harvest, priority := .medium },
    { title := "Winter feeding", type := .feeding, priority := .high },
    { title := "Winterization", type := .equipment, priority := .high }]
  winter := [
    { title := "Check food stores", type := .inspection, priority := .high },
    { title := "Emergency feeding if needed", type := .feeding, priority := .high },
    { title := "Equipment maintenance", type := .equipment, priority := .low }]

/-- The `SEASONAL_ACTIVITIES` record: only the `northeast` key exists
(the source comments "Other climate zones would have similar structures"). -/
def seasonalActivitiesTable : List (String × ZoneActivities) :=
  [("northeast", northeastActivities)]

/-- Property lookup `SEASONAL_ACTIVITIES[climateZone]`. -/
def lookupZoneActivities (climateZone : String) : Option ZoneActivities :=
  (seasonalActivitiesTable.find? fun p => p.1 == climateZone).map (·.2)

/-- One `forEach` block of `generateRecommendedEvents`: the activity at
index `i` is anchored `i * spacing` days after the season start. -/
def seasonEvents (userId season : String) (anchor spacing : Int)
    (apiaryId : String) (hiveIds : List String) (year : Int)
    (activities : List SeasonalActivity) : List CalendarEvent :=
  activities.enum.map fun p =>
    let startDate := setDate anchor (getDate anchor + (p.1 : Int) * spacing)
    { id := season ++ "-" ++ toString p.1 ++ "-" ++ toString year
      user_id := userId
      title := p.2.title
      description := some ("Seasonal beekeeping task: " ++ p.2.title)
      start_date := startDate
      all_day := true
      type := p.2.type
      priority := p.2.priority
      apiary_id := some apiaryId
      hive_ids := some hiveIds
      tags := some ["recommended", "seasonal", season] }

/-- `generateRecommendedEvents(userId, climateZone, apiaryId, hiveIds, year)`:
looks up the zone table (falling back to `northeast`) and emits the four
seasonal batches anchored at March 1, June 1, September 1 and December 1,
spaced 14 days apart (21 in winter). -/
def generateRecommendedEvents (userId climateZone apiaryId : String)
    (hiveIds : List String) (year : Int) : List CalendarEvent :=
  let zoneActivities := (lookupZoneActivities climateZone).getD northeastActivities
  seasonEvents userId "spring" (mkTs year 3 1) 14 apiaryId hiveIds year
      zoneActivities.spring ++
    seasonEvents userId "summer" (mkTs year 6 1) 14 apiaryId hiveIds year
      zoneActivities.summer ++
    seasonEvents userId "fall" (mkTs year 9 1) 14 apiaryId hiveIds year
      zoneActivities.fall ++
    seasonEvents userId "winter" (mkTs year 12 1) 21 apiaryId hiveIds year
      zoneActivities.winter

/-! ## Mutation operations (`deleteCalendarEvent`, `completeCalendarEvent`)

The Supabase client is an external collaborator; the store is modelled
as the list of persisted events and the PostgREST behaviour of the two
calls used here is embedded directly: a filtered DELETE or UPDATE that
matches zero rows completes without an error, and the update body is
serialized with JSON.stringify, which drops properties whose value is
undefined, leaving those columns unchanged. -/

/-- The `ApiResponse` shape for calls that return no data. -/
structure ApiResponseUnit where
  success : Bool
  error : Option String := none
deriving DecidableEq, Repr

/-- `supabase.from('calendar_events').delete().eq('id', id)`: removes the
matching rows; no error is reported, also when no row matches. -/
def supabaseDeleteById (store : List CalendarEvent) (id : String) :
    List CalendarEvent × Option String :=
  (store.filter fun e => e.id != id, none)

/-- `deleteCalendarEvent(supabase, id)`: runs the delete and maps the
absence or presence of a client error to the `ApiResponse`. -/
def deleteCalendarEvent (store : List CalendarEvent) (id : String) :
    List CalendarEvent × ApiResponseUnit :=
  let res := supabaseDeleteById store id
  match res.2 with
  | some msg => (res.1, { success := false, error := some msg })
  | none => (res.1, { success := true })

/-- The object literal passed to `.update` by `completeCalendarEvent`:
`completed: true`, `completed_at: now`, and the optional `notes`
argument (the property is written even when the argument is omitted, its
value then being undefined). -/
structure CompletionUpdate where
  completed : Bool
  completed_at : Int
  notes : Option String
deriving DecidableEq, Repr

/-- Effect of the update on one stored row.  JSON.stringify drops the
`notes` property when its value is undefined, and PostgREST leaves a
column that is missing from the payload unchanged. -/
def applyCompletionUpdate (u : CompletionUpdate) (e : CalendarEvent) : CalendarEvent :=
  { e with
    completed := some u.completed
    completed_at := some u.completed_at
    notes := match u.notes with
      | some n => some n
      | none => e.notes }

/-- `completeCalendarEvent(supabase, id, notes?)` at instant `now`:
updates every row whose id matches and reports success. -/
def completeCalendarEvent (store : List CalendarEvent) (id : String)
    (now : Int) (notes : Option String) : List CalendarEvent × ApiResponseUnit :=
  let u : CompletionUpdate := { completed := true, completed_at := now, notes := notes }
  (store.map fun e => if e.id == id then applyCompletionUpdate u e else e,
    { success := true })

/-! ## `NotificationsMenu.tsx`: day-cell sorting and view windows -/

/-- The `priorityOrder` map of the `renderDay` comparator. -/
def priorityOrder : Priority → Int
  | .high => 0
  | .medium => 1
  | .low => 2

/-- The comparator passed to `dayEvents.sort` in `renderDay`: priority
difference first, then all-day before timed, then start-time difference. -/
def eventCompare (a b : CalendarEvent) : Int :=
  let priorityDiff := priorityOrder a.priority - priorityOrder b.priority
  if priorityDiff ≠ 0 then priorityDiff
  else if a.all_day ∧ ¬ b.all_day then -1
  else if ¬ a.all_day ∧ b.all_day then 1
  else a.start_date - b.start_date

/-- Insert into a sorted list, before the first element that does not
compare strictly below `x`; equal elements keep their original order,
matching the stability of `Array.prototype.sort`. -/
def insertEvent (x : CalendarEvent) : List CalendarEvent → List CalendarEvent
  | [] => [x]
  | y :: ys => if eventCompare y x < 0 then y :: insertEvent x ys else x :: y :: ys

/-- The stable sort `dayEvents.sort(comparator)` of `renderDay`. -/
def sortDayEvents : List CalendarEvent → List CalendarEvent
  | [] => []
  | x :: xs => insertEvent x (sortDayEvents xs)

/-- The view modes of the calendar component. -/
inductive ViewMode where
  | month | week | day | agenda
deriving DecidableEq, Repr

/-- The date-range `switch` of `loadEvents`: the `[startDate, endDate]`
pair queried for the current view. -/
def loadEventsWindow (viewMode : ViewMode) (currentDate : Int) : Int × Int :=
  match viewMode with
  | .month => (startOfMonth currentDate, endOfMonth currentDate)
  | .week => (startOfWeek currentDate, endOfWeek currentDate)
  | .day => (currentDate, dfAddDays currentDate 1)
  | .agenda => (currentDate, dfAddMonths currentDate 3)

/-- `handlePrevious`: the new reference date for one backward step. -/
def handlePrevious (viewMode : ViewMode) (currentDate : Int) : Int :=
  match viewMode with
  | .month => dfSubMonths currentDate 1
  | .week => dfSubDays currentDate 7
  | .day => dfSubDays currentDate 1
  | .agenda => dfSubMonths currentDate 1

/-- `handleNext`: the new reference date for one forward step. -/
def handleNext (viewMode : ViewMode) (currentDate : Int) : Int :=
  match viewMode with
  | .month => dfAddMonths currentDate 1
  | .week => dfAddDays currentDate 7
  | .day => dfAddDays currentDate 1
  | .agenda => dfAddMonths currentDate 1

/-! ## Concrete sample inputs -/

/-- A non-recurring event starting 2025-01-01. -/
def evC1 : CalendarEvent :=
  { id := "c1", user_id := "u", title := "plain event", start_date := mkTs 2025 1 1,
    all_day := true, type := .inspection, priority := .medium }

/-- A monthly recurring event starting 2025-01-31. -/
def evC2 : CalendarEvent :=
  { id := "c2", user_id := "u", title := "monthly inspection",
    start_date := mkTs 2025 1 31, all_day := true, type := .inspection,
    priority := .medium,
    recurrence := some { frequency := .monthly, interval := 1 } }

/-- A daily recurring event with a stored count of 0. -/
def evC3 : CalendarEvent :=
  { id := "c3", user_id := "u", title := "daily check", start_date := mkTs 2025 1 1,
    all_day := true, type := .inspection, priority := .medium,
    recurrence := some { frequency := .daily, interval := 1, count := some 0 } }

/-- Recurrence rule of the bounds witness: daily, count 2, until 2025-01-10. -/
def rW3 : RecurrencePattern :=
  { frequency := .daily, interval := 1, untilDate := some (mkTs 2025 1 10),
    count := some 2 }

/-- A daily recurring event with both bounds set. -/
def evW3 : CalendarEvent :=
  { id := "w3", user_id := "u", title := "daily check", start_date := mkTs 2025 1 1,
    all_day := true, type := .inspection, priority := .medium,
    recurrence := some rW3 }

/-- The expansion of `evW3` over the first five days of January 2025. -/
def resW3 : List CalendarEvent :=
  (calculateRecurringEvents evW3 (mkTs 2025 1 1) (mkTs 2025 1 6 - 1) 20).getD []

/-- A daily recurring event whose interval is 0 (the unguarded input). -/
def evC4 : CalendarEvent :=
  { id := "c4", user_id := "u", title := "stuck", start_date := mkTs 2025 1 1,
    all_day := true, type := .inspection, priority := .medium,
    recurrence := some { frequency := .daily, interval := 0 } }

/-- Recurrence rule of the termination witness: monthly, interval 1. -/
def rW4 : RecurrencePattern := { frequency := .monthly, interval := 1 }

/-- A monthly recurring event used as the termination witness. -/
def evW4 : CalendarEvent :=
  { id := "w4", user_id := "u", title := "monthly check", start_date := mkTs 2025 1 15,
    all_day := true, type := .inspection, priority := .medium,
    recurrence := some rW4 }

/-- A weekly recurring event with an end instant, for the frame witness. -/
def evW5 : CalendarEvent :=
  { id := "w5", user_id := "u", title := "weekly visit", start_date := mkTs 2025 1 6,
    end_date := some (mkTs 2025 1 6 + 3600000), all_day := false, type := .inspection,
    priority := .high, tags := some ["mine"],
    recurrence := some { frequency := .weekly, interval := 1 } }

/-- The expansion of `evW5` over January 2025. -/
def resW5 : List CalendarEvent :=
  (calculateRecurringEvents evW5 (mkTs 2025 1 1) (mkTs 2025 2 1 - 1) 20).getD []

/-- The second element of `resW5`: the first materialized instance. -/
def instW5 : CalendarEvent := resW5.getD 1 evW5

/-- Reference date 2025-03-15 09:00 (a time of day that is not midnight). -/
def refC7 : Int := mkTs 2025 3 15 + 9 * 3600000

/-- The day-window start that the specification describes: the reference
date truncated to 00:00 of its day.  Stated from the spec wording, to be
compared with the window the code computes. -/
def truncToDayStart (t : Int) : Int := (t / msPerDay) * msPerDay

/-- A stored event, present in the repository before a delete call. -/
def evC9 : CalendarEvent :=
  { id := "existing", user_id := "u", title := "kept", start_date := 0,
    all_day := true, type := .other, priority := .low }

/-- A stored event that already carries notes. -/
def evC10 : CalendarEvent :=
  { id := "done-me", user_id := "u", title := "with notes", start_date := 0,
    all_day := true, type := .other, priority := .low, notes := some "old notes" }

/-- The all-day tie-break as a rank: all-day events rank 0, timed 1. -/
def allDayRank (e : CalendarEvent) : Int := if e.all_day then 0 else 1

/-- The non-strict order the comparator induces: `a` is not strictly
after `b`. -/
def eventLe (a b : CalendarEvent) : Prop := ¬ eventCompare b a < 0

/-- Three same-day events with otherwise-equal fields: high priority. -/
def evC6high : CalendarEvent :=
  { id := "same", user_id := "u", title := "same-day", start_date := mkTs 2025 6 10,
    all_day := true, type := .inspection, priority := .high }

/-- Three same-day events with otherwise-equal fields: medium priority. -/
def evC6med : CalendarEvent := { evC6high with priority := .medium }

/-- Three same-day events with otherwise-equal fields: low priority. -/
def evC6low : CalendarEvent := { evC6high with priority := .low }

/-- The recurrence expansion diverges at an input: at every fuel the
embedded loop still has not exited. -/
def expansionDiverges (e : CalendarEvent) (viewStart viewEnd : Int) : Prop :=
  ∀ fuel : Nat, calculateRecurringEvents e viewStart viewEnd fuel = none

/-! ## Sanity checks of the date model -/

example : civilFromDays 0 = (1970, 1, 1) := by decide
example : daysFromCivil 1970 1 1 = 0 := by decide
example : civilFromDays (daysFromCivil 2025 1 31) = (2025, 1, 31) := by decide
example : civilFromDays (daysFromCivil 2024 2 29) = (2024, 2, 29) := by decide
example : setMonth (mkTs 2025 1 31) 1 = mkTs 2025 3 3 := by decide
example : setDate (mkTs 2025 1 31) 32 = mkTs 2025 2 1 := by decide
example : dfAddMonths (mkTs 2025 1 31) 1 = mkTs 2025 2 28 := by decide
example : startOfWeek (mkTs 2025 3 15) = mkTs 2025 3 9 := by decide

/-! ## C1: expansion of events without a recurrence rule -/

/-- C1 counterexample: a non-recurring event whose start lies outside
the window is still returned as a one-element sequence, where the claim
demands an empty sequence. -/
theorem C1_counterexample :
    calculateRecurringEvents evC1 (mkTs 2025 2 1) (mkTs 2025 3 1 - 1) 5 = some [evC1]
    ∧ ¬ (mkTs 2025 2 1 ≤ evC1.start_date ∧ evC1.start_date ≤ mkTs 2025 3 1 - 1) := by
  exact ⟨rfl, by decide⟩

/-- C1 (amended): for every event without a recurrence rule,
`calculateRecurringEvents` returns the one-element sequence holding the
base event unchanged, unconditionally, whatever the window is. -/
theorem C1_expand_without_recurrence (e : CalendarEvent) (viewStart viewEnd : Int)
    (fuel : Nat) (h : e.recurrence = none) :
    calculateRecurringEvents e viewStart viewEnd fuel = some [e] := by
  unfold calculateRecurringEvents
  rw [h]

/-- Witness for C1 at a concrete event and window. -/
theorem C1_expand_without_recurrence_witness :
    calculateRecurringEvents evC1 (mkTs 2025 2 1) (mkTs 2025 3 1 - 1) 5 = some [evC1] :=
  C1_expand_without_recurrence evC1 (mkTs 2025 2 1) (mkTs 2025 3 1 - 1) 5 rfl

/-! ## C2: monthly recurrence and month-end overflow -/

/-- C2: at the failing input (base 2025-01-31, monthly interval 1) the
code produces no February instance at all: over the February 2025 window
the expansion is empty, and over January through April the cursor jumps
from Jan 31 to Mar 3 and Apr 3, because the `Date` month mutator
overflows the day 31 into the next month instead of clamping to
Feb 28. -/
theorem C2_monthly_overflow :
    calculateRecurringEvents evC2 (mkTs 2025 2 1) (mkTs 2025 3 1 - 1) 10 = some []
    ∧ (calculateRecurringEvents evC2 (mkTs 2025 1 1) (mkTs 2025 5 1 - 1) 10).map
        (List.map CalendarEvent.start_date)
      = some [mkTs 2025 1 31, mkTs 2025 3 3, mkTs 2025 4 3]
    ∧ setMonth (mkTs 2025 1 31) 1 = mkTs 2025 3 3 := by
  exact ⟨rfl, rfl, by decide⟩

/-! ## C3: count and until bounds of the expansion -/

/-- Elements of the expansion loop output never exceed a finite count:
each push is guarded by a positive count and decrements it. -/
lemma recurLoop_length_le (event : CalendarEvent) (freq : Frequency) (interval : Int)
    (eventEnd : Option Int) (duration viewStart viewEnd : Int)
    (untilDate : Option Int) :
    ∀ (fuel : Nat) (current c : Int) (l : List CalendarEvent),
      recurLoop event freq interval eventEnd duration viewStart viewEnd untilDate
        fuel current (some c) = some l →
      (l.length : Int) ≤ max c 0 := by
  intro fuel
  induction fuel with
  | zero => intro current c l h; exact absurd h (by simp [recurLoop])
  | succ f ih =>
    intro current c l h
    rw [recurLoop] at h
    split at h
    · next hguard =>
      dsimp only at h
      split at h
      · next hpush =>
        have hc : 0 < c := by
          have := hpush.2.2.2
          simpa [countPos] using this
        simp only [decCount, Option.map_some'] at h
        cases hr : recurLoop event freq interval eventEnd duration viewStart viewEnd
            untilDate f (advanceCursor freq interval current) (some (c - 1)) with
        | none => rw [hr] at h; simp at h
        | some rest =>
          rw [hr] at h
          simp only [Option.map_some'] at h
          have hlen := ih (advanceCursor freq interval current) (c - 1) rest hr
          cases h
          simp only [List.length_cons]
          push_cast
          omega
      · exact ih _ c l h
    · cases h
      simp

/-- Every element pushed by the expansion loop has its start at or before
a set until bound: the push is guarded by the until check on the cursor. -/
lemma recurLoop_until_le (event : CalendarEvent) (freq : Frequency) (interval : Int)
    (eventEnd : Option Int) (duration viewStart viewEnd u : Int) :
    ∀ (fuel : Nat) (current : Int) (count : Option Int) (l : List CalendarEvent),
      recurLoop event freq interval eventEnd duration viewStart viewEnd (some u)
        fuel current count = some l →
      ∀ x ∈ l, x.start_date ≤ u := by
  intro fuel
  induction fuel with
  | zero => intro current count l h; exact absurd h (by simp [recurLoop])
  | succ f ih =>
    intro current count l h
    rw [recurLoop] at h
    split at h
    · next hguard =>
      dsimp only at h
      split at h
      · next hpush =>
        have hu : advanceCursor freq interval current ≤ u := by
          have := hpush.2.2.1
          simpa [untilOk] using this
        cases hr : recurLoop event freq interval eventEnd duration viewStart viewEnd
            (some u) f (advanceCursor freq interval current) (decCount count) with
        | none => rw [hr] at h; simp at h
        | some rest =>
          rw [hr] at h
          simp only [Option.map_some'] at h
          cases h
          intro x hx
          rcases List.mem_cons.mp hx with hx | hx
          · subst hx; simpa [mkInstance] using hu
          · exact ih _ (decCount count) rest hr x hx
      · exact ih _ count l h
    · cases h
      simp

/-- C3 counterexample: for a daily event whose `count` is set to 0 the
expansion over a four-day window holds three elements, not at most 0:
the initialisation `count || Infinity` turns the stored 0 into no bound
at all. -/
theorem C3_counterexample :
    (calculateRecurringEvents evC3 (mkTs 2025 1 1) (mkTs 2025 1 4 - 1) 10).map
        List.length
      = some 3
    ∧ evC3.recurrence
      = some { frequency := .daily, interval := 1, count := some 0 } := by
  exact ⟨rfl, rfl⟩

/-- C3 (amended): when `recurrence.count` is set to a positive value the
expansion holds at most `count` elements (the base occurrence consuming
one unit), and when `recurrence.until` is set and not before the base
start date no element starts after it; with both set, expansion stops at
whichever bound is reached first.  (A stored count of 0 is treated as no
bound, and the base occurrence is emitted without an until check.) -/
theorem C3_count_until_bounds (e : CalendarEvent) (r : RecurrencePattern)
    (viewStart viewEnd : Int) (fuel : Nat) (res : List CalendarEvent)
    (hr : e.recurrence = some r)
    (hres : calculateRecurringEvents e viewStart viewEnd fuel = some res) :
    (∀ c, r.count = some c → 1 ≤ c → (res.length : Int) ≤ c)
    ∧ (∀ u, r.untilDate = some u → e.start_date ≤ u →
        ∀ x ∈ res, x.start_date ≤ u) := by
  unfold calculateRecurringEvents at hres
  rw [hr] at hres
  dsimp only at hres
  rcases Option.map_eq_some'.mp hres with ⟨l, hl, hres2⟩
  constructor
  · intro c hc h1
    rw [hc] at hl
    have hcne : ¬ c = 0 := by omega
    simp only [initCount, if_neg hcne] at hl
    by_cases hb : viewStart ≤ e.start_date ∧ e.start_date ≤ viewEnd
    · simp only [if_pos hb] at hl hres2
      simp only [decCount, Option.map_some'] at hl
      have hlen := recurLoop_length_le e r.frequency r.interval e.end_date _
        viewStart viewEnd r.untilDate fuel e.start_date (c - 1) l hl
      subst hres2
      simp only [List.singleton_append, List.length_cons]
      push_cast
      omega
    · simp only [if_neg hb] at hl hres2
      have hlen := recurLoop_length_le e r.frequency r.interval e.end_date _
        viewStart viewEnd r.untilDate fuel e.start_date c l hl
      subst hres2
      simp only [List.nil_append]
      omega
  · intro u hu hsu x hx
    rw [hu] at hl
    subst hres2
    rcases List.mem_append.mp hx with hx | hx
    · by_cases hb : viewStart ≤ e.start_date ∧ e.start_date ≤ viewEnd
      · simp only [if_pos hb, List.mem_singleton] at hx
        subst hx
        exact hsu
      · simp only [if_neg hb, List.not_mem_nil] at hx
    · exact recurLoop_until_le e r.frequency r.interval e.end_date _
        viewStart viewEnd u fuel e.start_date _ l hl x hx

/-- Witness for C3 at a concrete daily event with count 2 and an until
bound. -/
theorem C3_count_until_bounds_witness :
    (∀ c, rW3.count = some c → 1 ≤ c → (resW3.length : Int) ≤ c)
    ∧ (∀ u, rW3.untilDate = some u → evW3.start_date ≤ u →
        ∀ x ∈ resW3, x.start_date ≤ u) :=
  C3_count_until_bounds evW3 rW3 (mkTs 2025 1 1) (mkTs 2025 1 6 - 1) 20 resW3
    rfl (by decide)

/-! ## C4: termination of the expansion loop -/

/-- The start of the next calendar month is strictly later: the step of
the month anchor over the linear month index is one month length. -/
lemma monthAnchor_lt_succ (k : Int) : monthAnchor k < monthAnchor (k + 1) := by
  unfold monthAnchor daysFromCivil
  dsimp only
  split_ifs <;> omega

/-- Month anchors are strictly monotone in the linear month index. -/
lemma monthAnchor_strictMono : StrictMono monthAnchor :=
  strictMono_int_of_lt_succ monthAnchor_lt_succ

/-- With a positive interval, every frequency advances the cursor to a
strictly later instant. -/
lemma advanceCursor_gt (freq : Frequency) (interval t : Int) (hi : 1 ≤ interval) :
    t < advanceCursor freq interval t := by
  cases freq with
  | daily =>
    simp only [advanceCursor, setDate, msPerDay]
    omega
  | weekly =>
    simp only [advanceCursor, setDate, msPerDay]
    omega
  | monthly =>
    simp only [advanceCursor, setMonth, monthIndex]
    have harg : 12 * getFullYear t + (getMonth t + interval)
        = (12 * getFullYear t + getMonth t) + interval := by ring
    rw [harg]
    have hmono := monthAnchor_strictMono
      (show 12 * getFullYear t + getMonth t
        < (12 * getFullYear t + getMonth t) + interval by omega)
    simp only [msPerDay]
    omega
  | yearly =>
    simp only [advanceCursor, setFullYear, monthIndex]
    have harg : 12 * (getFullYear t + interval) + getMonth t
        = (12 * getFullYear t + getMonth t) + 12 * interval := by ring
    rw [harg]
    have hmono := monthAnchor_strictMono
      (show 12 * getFullYear t + getMonth t
        < (12 * getFullYear t + getMonth t) + 12 * interval by omega)
    simp only [msPerDay]
    omega

/-- When the cursor strictly advances at every step, the loop exits once
the cursor passes the window end, so fuel beyond the remaining distance
suffices. -/
lemma recurLoop_terminates (event : CalendarEvent) (freq : Frequency) (interval : Int)
    (eventEnd : Option Int) (duration viewStart viewEnd : Int) (untilDate : Option Int)
    (hadv : ∀ t, t < advanceCursor freq interval t) :
    ∀ (fuel : Nat) (current : Int) (count : Option Int),
      (viewEnd + 1 - current).toNat < fuel →
      ∃ l, recurLoop event freq interval eventEnd duration viewStart viewEnd untilDate
        fuel current count = some l := by
  intro fuel
  induction fuel with
  | zero => intro current count h; omega
  | succ f ih =>
    intro current count h
    rw [recurLoop]
    dsimp only
    by_cases hg : current ≤ viewEnd ∧ countPos count = true
        ∧ untilOk untilDate current = true
    · rw [if_pos hg]
      have hnext := hadv current
      have hm : (viewEnd + 1 - advanceCursor freq interval current).toNat < f := by
        have hcur : current ≤ viewEnd := hg.1
        omega
      by_cases hp : viewStart ≤ advanceCursor freq interval current
          ∧ advanceCursor freq interval current ≤ viewEnd
          ∧ untilOk untilDate (advanceCursor freq interval current) = true
          ∧ countPos count = true
      · rw [if_pos hp]
        obtain ⟨l, hl⟩ := ih (advanceCursor freq interval current) (decCount count) hm
        exact ⟨_, by rw [hl]; rfl⟩
      · rw [if_neg hp]
        exact ih _ count hm
    · rw [if_neg hg]
      exact ⟨[], rfl⟩

/-- A zero interval leaves the cursor in place. -/
lemma advanceCursor_daily_zero (t : Int) : advanceCursor .daily 0 t = t := by
  simp [advanceCursor, setDate]

/-- For the unguarded daily event with interval 0 the loop guard never
fails, so every finite fuel runs out. -/
lemma recurLoopC4_none :
    ∀ (fuel : Nat) (current : Int), current ≤ mkTs 2025 1 4 - 1 →
      recurLoop evC4 .daily 0 none 0 (mkTs 2025 1 1) (mkTs 2025 1 4 - 1) none
        fuel current none = none := by
  intro fuel
  induction fuel with
  | zero => intro current h; rfl
  | succ f ih =>
    intro current h
    rw [recurLoop]
    dsimp only
    rw [advanceCursor_daily_zero]
    have hg : current ≤ mkTs 2025 1 4 - 1 ∧ countPos none = true
        ∧ untilOk none current = true := ⟨h, rfl, rfl⟩
    rw [if_pos hg]
    by_cases hp : mkTs 2025 1 1 ≤ current ∧ current ≤ mkTs 2025 1 4 - 1
        ∧ untilOk none current = true ∧ countPos none = true
    · rw [if_pos hp]
      show Option.map _ (recurLoop evC4 .daily 0 none 0 (mkTs 2025 1 1)
        (mkTs 2025 1 4 - 1) none f current (decCount none)) = none
      rw [show decCount none = (none : Option Int) from rfl, ih current h]
      rfl
    · rw [if_neg hp]
      exact ih current h

/-- C4 counterexample: the code does not reject a nonpositive interval
and does not treat it as 1: for the daily event with interval 0 and no
count bound the expansion loop never terminates (the embedded loop
exhausts every fuel). -/
theorem C4_counterexample :
    expansionDiverges evC4 (mkTs 2025 1 1) (mkTs 2025 1 4 - 1) := by
  intro fuel
  have heq : calculateRecurringEvents evC4 (mkTs 2025 1 1) (mkTs 2025 1 4 - 1) fuel
      = (recurLoop evC4 .daily 0 none 0 (mkTs 2025 1 1) (mkTs 2025 1 4 - 1) none
          fuel (mkTs 2025 1 1) none).map ([evC4] ++ ·) := rfl
  rw [heq, recurLoopC4_none fuel (mkTs 2025 1 1) (by decide)]
  rfl

/-- C4 (amended): for every recurring event whose interval is at least 1
the expansion terminates with a finite sequence, for every frequency and
window; nonpositive intervals are neither rejected nor clamped and make
the loop diverge when no count bound applies. -/
theorem C4_terminates_pos_interval (e : CalendarEvent) (r : RecurrencePattern)
    (viewStart viewEnd : Int) (hr : e.recurrence = some r) (hi : 1 ≤ r.interval) :
    ∃ (fuel : Nat) (res : List CalendarEvent),
      calculateRecurringEvents e viewStart viewEnd fuel = some res := by
  have hadv : ∀ t, t < advanceCursor r.frequency r.interval t := fun t =>
    advanceCursor_gt r.frequency r.interval t hi
  obtain ⟨l, hl⟩ := recurLoop_terminates e r.frequency r.interval e.end_date
    (match e.end_date with | some ee => ee - e.start_date | none => 0)
    viewStart viewEnd r.untilDate hadv
    ((viewEnd + 1 - e.start_date).toNat + 1) e.start_date
    (if viewStart ≤ e.start_date ∧ e.start_date ≤ viewEnd
      then decCount (initCount r.count) else initCount r.count)
    (by omega)
  refine ⟨(viewEnd + 1 - e.start_date).toNat + 1,
    (if viewStart ≤ e.start_date ∧ e.start_date ≤ viewEnd then [e] else []) ++ l, ?_⟩
  unfold calculateRecurringEvents
  rw [hr]
  dsimp only
  rw [hl]
  rfl

/-- Witness for C4 at a concrete monthly event. -/
theorem C4_terminates_pos_interval_witness :
    ∃ (fuel : Nat) (res : List CalendarEvent),
      calculateRecurringEvents evW4 (mkTs 2025 1 1) (mkTs 2025 4 1 - 1) fuel
        = some res :=
  C4_terminates_pos_interval evW4 rW4 (mkTs 2025 1 1) (mkTs 2025 4 1 - 1) rfl
    (by decide)

/-! ## C5: the frame of a materialized instance -/

/-- Every element of the loop output is the instance object built from
the base event at some cursor position. -/
lemma recurLoop_mem_shape (event : CalendarEvent) (freq : Frequency) (interval : Int)
    (eventEnd : Option Int) (duration viewStart viewEnd : Int)
    (untilDate : Option Int) :
    ∀ (fuel : Nat) (current : Int) (count : Option Int) (l : List CalendarEvent),
      recurLoop event freq interval eventEnd duration viewStart viewEnd untilDate
        fuel current count = some l →
      ∀ x ∈ l, ∃ cur, x = mkInstance event eventEnd duration cur := by
  intro fuel
  induction fuel with
  | zero => intro current count l h; exact absurd h (by simp [recurLoop])
  | succ f ih =>
    intro current count l h
    rw [recurLoop] at h
    split at h
    · next hguard =>
      dsimp only at h
      split at h
      · next hpush =>
        cases hr : recurLoop event freq interval eventEnd duration viewStart viewEnd
            untilDate f (advanceCursor freq interval current) (decCount count) with
        | none => rw [hr] at h; simp at h
        | some rest =>
          rw [hr] at h
          simp only [Option.map_some'] at h
          cases h
          intro x hx
          rcases List.mem_cons.mp hx with hx | hx
          · exact ⟨advanceCursor freq interval current, hx⟩
          · exact ih _ (decCount count) rest hr x hx
      · exact ih _ count l h
    · cases h
      simp

/-- C5: every element of the expansion other than the base event itself
derives its id from the base id and the occurrence timestamp, its start
from the cursor, its end from the cursor plus the original duration
(absent when the base has no end), its tags from the base tags with
`recurring-instance` appended, and preserves every other field of the
base event. -/
theorem C5_instance_frame (e : CalendarEvent) (viewStart viewEnd : Int) (fuel : Nat)
    (res : List CalendarEvent)
    (hres : calculateRecurringEvents e viewStart viewEnd fuel = some res) :
    ∀ x ∈ res, x = e ∨ ∃ cur,
      x.id = e.id ++ "-" ++ toString cur
      ∧ x.start_date = cur
      ∧ x.end_date = (e.end_date.map fun ee => cur + (ee - e.start_date))
      ∧ x.tags = some (e.tags.getD [] ++ ["recurring-instance"])
      ∧ x.user_id = e.user_id ∧ x.title = e.title ∧ x.description = e.description
      ∧ x.all_day = e.all_day ∧ x.type = e.type ∧ x.location = e.location
      ∧ x.apiary_id = e.apiary_id ∧ x.hive_ids = e.hive_ids
      ∧ x.reminders = e.reminders ∧ x.recurrence = e.recurrence
      ∧ x.color = e.color ∧ x.priority = e.priority
      ∧ x.weather_dependent = e.weather_dependent ∧ x.completed = e.completed
      ∧ x.completed_at = e.completed_at ∧ x.notes = e.notes
      ∧ x.created_at = e.created_at ∧ x.updated_at = e.updated_at := by
  cases hrec : e.recurrence with
  | none =>
    unfold calculateRecurringEvents at hres
    rw [hrec] at hres
    have hres2 : [e] = res := by simpa using hres
    subst hres2
    intro x hx
    simp only [List.mem_singleton] at hx
    exact Or.inl hx
  | some r =>
    unfold calculateRecurringEvents at hres
    rw [hrec] at hres
    dsimp only at hres
    rcases Option.map_eq_some'.mp hres with ⟨l, hl, hres2⟩
    subst hres2
    intro x hx
    rcases List.mem_append.mp hx with hx | hx
    · left
      by_cases hb : viewStart ≤ e.start_date ∧ e.start_date ≤ viewEnd
      · simpa only [if_pos hb, List.mem_singleton] using hx
      · simp only [if_neg hb, List.not_mem_nil] at hx
    · right
      obtain ⟨cur, rfl⟩ := recurLoop_mem_shape e r.frequency r.interval e.end_date _
        viewStart viewEnd r.untilDate fuel e.start_date _ l hl x hx
      refine ⟨cur, ?_⟩
      cases he : e.end_date <;> simp [mkInstance, he, hrec]

/-- Witness for C5 at the first materialized instance of a concrete
weekly event with an end instant. -/
theorem C5_instance_frame_witness :
    instW5 = evW5 ∨ ∃ cur,
      instW5.id = evW5.id ++ "-" ++ toString cur
      ∧ instW5.start_date = cur
      ∧ instW5.end_date = (evW5.end_date.map fun ee => cur + (ee - evW5.start_date))
      ∧ instW5.tags = some (evW5.tags.getD [] ++ ["recurring-instance"])
      ∧ instW5.user_id = evW5.user_id ∧ instW5.title = evW5.title
      ∧ instW5.description = evW5.description
      ∧ instW5.all_day = evW5.all_day ∧ instW5.type = evW5.type
      ∧ instW5.location = evW5.location
      ∧ instW5.apiary_id = evW5.apiary_id ∧ instW5.hive_ids = evW5.hive_ids
      ∧ instW5.reminders = evW5.reminders ∧ instW5.recurrence = evW5.recurrence
      ∧ instW5.color = evW5.color ∧ instW5.priority = evW5.priority
      ∧ instW5.weather_dependent = evW5.weather_dependent
      ∧ instW5.completed = evW5.completed
      ∧ instW5.completed_at = evW5.completed_at ∧ instW5.notes = evW5.notes
      ∧ instW5.created_at = evW5.created_at ∧ instW5.updated_at = evW5.updated_at :=
  C5_instance_frame evW5 (mkTs 2025 1 1) (mkTs 2025 2 1 - 1) 20 resW5 (by decide)
    instW5 (by decide)

/-! ## C6: same-day ordering in the day cell -/

/-- The comparator is the strict lexicographic chain priority rank, then
all-day rank, then start time. -/
lemma eventCompare_lt_iff (a b : CalendarEvent) :
    eventCompare a b < 0 ↔
      (priorityOrder a.priority < priorityOrder b.priority
        ∨ (priorityOrder a.priority = priorityOrder b.priority
          ∧ (allDayRank a < allDayRank b
            ∨ (allDayRank a = allDayRank b ∧ a.start_date < b.start_date)))) := by
  unfold eventCompare allDayRank
  dsimp only
  cases ha : a.all_day <;> cases hb : b.all_day <;> split_ifs <;> simp_all <;> omega

/-- Comparing strictly below means the other direction is non-strict. -/
lemma eventLe_of_lt {x y : CalendarEvent} (h : eventCompare y x < 0) : eventLe y x := by
  unfold eventLe
  rw [eventCompare_lt_iff] at h ⊢
  omega

/-- The induced non-strict order is transitive. -/
lemma eventLe_trans {a b c : CalendarEvent} (hab : eventLe a b) (hbc : eventLe b c) :
    eventLe a c := by
  unfold eventLe at *
  rw [eventCompare_lt_iff] at *
  omega

/-- Members of an insertion are the inserted element or old members. -/
lemma mem_insertEvent (x z : CalendarEvent) :
    ∀ l : List CalendarEvent, z ∈ insertEvent x l → z = x ∨ z ∈ l := by
  intro l
  induction l with
  | nil =>
    intro h
    simp [insertEvent] at h
    exact Or.inl h
  | cons y ys ih =>
    intro h
    rw [insertEvent] at h
    split at h
    · rcases List.mem_cons.mp h with rfl | h
      · exact Or.inr (List.mem_cons_self _ _)
      · rcases ih h with rfl | h
        · exact Or.inl rfl
        · exact Or.inr (List.mem_cons_of_mem _ h)
    · rcases List.mem_cons.mp h with rfl | h
      · exact Or.inl rfl
      · exact Or.inr h

/-- Insertion permutes consing. -/
lemma insertEvent_perm (x : CalendarEvent) :
    ∀ l : List CalendarEvent, (insertEvent x l).Perm (x :: l) := by
  intro l
  induction l with
  | nil => exact List.Perm.refl _
  | cons y ys ih =>
    rw [insertEvent]
    split
    · exact (ih.cons y).trans (List.Perm.swap x y ys)
    · exact List.Perm.refl _

/-- Insertion into a sorted list keeps it sorted. -/
lemma pairwise_insertEvent (x : CalendarEvent) :
    ∀ l : List CalendarEvent, l.Pairwise eventLe →
      (insertEvent x l).Pairwise eventLe := by
  intro l
  induction l with
  | nil => intro _; simp [insertEvent, List.Pairwise.nil]
  | cons y ys ih =>
    intro h
    rw [List.pairwise_cons] at h
    obtain ⟨hy, hys⟩ := h
    rw [insertEvent]
    split
    · next hlt =>
      rw [List.pairwise_cons]
      refine ⟨?_, ih hys⟩
      intro z hz
      rcases mem_insertEvent x z ys hz with rfl | hz
      · exact eventLe_of_lt hlt
      · exact hy z hz
    · next hnlt =>
      rw [List.pairwise_cons]
      refine ⟨?_, List.pairwise_cons.mpr ⟨hy, hys⟩⟩
      intro z hz
      rcases List.mem_cons.mp hz with rfl | hz
      · exact hnlt
      · exact eventLe_trans hnlt (hy z hz)

/-- The day-cell sort produces a sorted list. -/
lemma sortDayEvents_pairwise :
    ∀ l : List CalendarEvent, (sortDayEvents l).Pairwise eventLe := by
  intro l
  induction l with
  | nil => simp [sortDayEvents]
  | cons x xs ih => exact pairwise_insertEvent x _ ih

/-- The day-cell sort is a permutation of its input. -/
lemma sortDayEvents_perm :
    ∀ l : List CalendarEvent, (sortDayEvents l).Perm l := by
  intro l
  induction l with
  | nil => exact List.Perm.refl _
  | cons x xs ih => exact (insertEvent_perm x _).trans (ih.cons x)

/-- C6: the day-cell comparator orders events by priority (high rank 0
before medium rank 1 before low rank 2), then all-day before timed, then
start time ascending; the sort returns a permutation of the day events
in which every earlier element compares at or before every later one;
and three same-day events with priorities [low, high, medium] and
otherwise-equal fields come out in the order [high, medium, low]. -/
theorem C6_same_day_ordering :
    (∀ a b, eventCompare a b < 0 ↔
      (priorityOrder a.priority < priorityOrder b.priority
        ∨ (priorityOrder a.priority = priorityOrder b.priority
          ∧ (allDayRank a < allDayRank b
            ∨ (allDayRank a = allDayRank b ∧ a.start_date < b.start_date)))))
    ∧ (∀ l : List CalendarEvent,
        (sortDayEvents l).Pairwise eventLe ∧ (sortDayEvents l).Perm l)
    ∧ sortDayEvents [evC6low, evC6high, evC6med] = [evC6high, evC6med, evC6low] :=
  ⟨eventCompare_lt_iff,
    fun l => ⟨sortDayEvents_pairwise l, sortDayEvents_perm l⟩,
    by decide⟩

/-! ## C7: day and agenda view windows and navigation -/

/-- C7 counterexample: for a reference date at 09:00 the day-view window
starts at the reference date itself, not at 00:00 of that day as the
claim states. -/
theorem C7_counterexample :
    (loadEventsWindow ViewMode.day refC7).1 ≠ truncToDayStart refC7 := by
  decide

/-- C7 (amended): the day-view window is `[referenceDate,
referenceDate + 1 day)` with the start taken as the reference date
itself (no truncation to midnight: whenever the reference date has a
nonzero time of day the window start differs from 00:00); the agenda
window spans from the reference date to the reference date plus three
calendar months, while agenda previous/next navigation moves the
reference date by exactly one calendar month. -/
theorem C7_day_agenda_windows (ref : Int) :
    loadEventsWindow ViewMode.day ref = (ref, ref + msPerDay)
    ∧ loadEventsWindow ViewMode.agenda ref = (ref, dfAddMonths ref 3)
    ∧ handlePrevious ViewMode.agenda ref = dfAddMonths ref (-1)
    ∧ handleNext ViewMode.agenda ref = dfAddMonths ref 1
    ∧ (msOfDay ref ≠ 0 → (loadEventsWindow ViewMode.day ref).1 ≠ truncToDayStart ref) := by
  refine ⟨?_, rfl, rfl, rfl, ?_⟩
  · show (ref, dfAddDays ref 1) = (ref, ref + msPerDay)
    rw [dfAddDays, one_mul]
  · intro h
    show ref ≠ truncToDayStart ref
    unfold truncToDayStart
    unfold msOfDay msPerDay at *
    omega

/-- Witness for C7 at the concrete 09:00 reference date. -/
theorem C7_day_agenda_windows_witness :
    loadEventsWindow ViewMode.day refC7 = (refC7, refC7 + msPerDay)
    ∧ (loadEventsWindow ViewMode.day refC7).1 ≠ truncToDayStart refC7 :=
  ⟨(C7_day_agenda_windows refC7).1,
    (C7_day_agenda_windows refC7).2.2.2.2 (by decide)⟩

/-! ## C8: climate zone fallback of the seasonal generator -/

/-- C8: a climate zone without a table entry falls back to the northeast
table: the generated events for the zone `unknown-zone` equal those for
`northeast` at every owner, apiary, hive set and year, and in particular
there are 14 of them (4 spring, 3 summer, 4 fall, 3 winter). -/
theorem C8_zone_fallback (userId apiaryId : String) (hiveIds : List String)
    (year : Int) :
    generateRecommendedEvents userId "unknown-zone" apiaryId hiveIds year
      = generateRecommendedEvents userId "northeast" apiaryId hiveIds year
    ∧ (generateRecommendedEvents userId "unknown-zone" apiaryId hiveIds year).length
      = 14 := by
  exact ⟨rfl, rfl⟩

/-! ## C9: deleting an unknown id -/

/-- C9 counterexample: deleting an id that is not in the store leaves
the store unchanged and reports plain success with no error value, where
the claim demands a not-found report. -/
theorem C9_counterexample :
    deleteCalendarEvent [evC9] "missing-id"
      = ([evC9], { success := true, error := none }) := by
  decide

/-- C9 (amended): `deleteCalendarEvent` never reports not-found: for
every store and id it returns plain success (the client reports no error
for a delete matching zero rows) and simply removes any matching rows;
it does not crash and does not distinguish an unknown id. -/
theorem C9_delete_silent_success (store : List CalendarEvent) (id : String) :
    (deleteCalendarEvent store id).2 = { success := true, error := none }
    ∧ (deleteCalendarEvent store id).1 = store.filter (fun e => e.id != id) :=
  ⟨rfl, rfl⟩

/-! ## C10: the notes column in the completion update -/

/-- C10 counterexample: completing the event `done-me` without a notes
argument leaves its stored notes at their old value instead of clearing
them. -/
theorem C10_counterexample :
    (completeCalendarEvent [evC10] "done-me" 1000 none).1
      = [{ evC10 with completed := some true, completed_at := some 1000 }]
    ∧ ((completeCalendarEvent [evC10] "done-me" 1000 none).1.map CalendarEvent.notes)
      = [some "old notes"] := by
  exact ⟨rfl, rfl⟩

/-- C10 (amended): `completeCalendarEvent` always writes `completed =
true` and `completed_at = now`; the `notes` property of the update
object, being undefined when the argument is omitted, is dropped at
serialization, so the stored notes are then left unchanged rather than
cleared, and are overwritten exactly when a notes argument is given. -/
theorem C10_complete_notes_frame (store : List CalendarEvent) (id : String)
    (now : Int) :
    (completeCalendarEvent store id now none).1
      = store.map (fun e => if e.id == id then
          { e with completed := some true, completed_at := some now } else e)
    ∧ ∀ n, (completeCalendarEvent store id now (some n)).1
      = store.map (fun e => if e.id == id then
          { e with
            completed := some true
            completed_at := some now
            notes := some n }
          else e) :=
  ⟨rfl, fun _ => rfl⟩

end Beekeep
